import Mathlib

/-!
Verification of the spline-interpolation material `SplineParsedMaterial`
(files `SplineParsedMaterial.h` / `SplineParsedMaterial.C`).

Real numbers (`Real` in the C++ sources) are embedded as rationals `ℚ`, so
that every definition is executable and every comparison decidable; all the
algebraic identities proved here hold verbatim over any linear ordered field,
so nothing is lost for the claims at hand (which concern exact arithmetic,
control flow and error ordering, not floating-point rounding).

The class member `_spline` has type `SplineInterpolation`, a collaborator
whose sources are not part of this repository; its behaviour (`setData`,
`sample`, `sampleDerivative`, `sample2ndDerivative`, interval location by
binary search) is modelled from the spec, which gives the exact evaluation
formulas and describes the tridiagonal solve.  Everything else is translated
directly from `SplineParsedMaterial.C`.
-/

/-- The natural-spline sentinel: the default value `1e30` of the `yp1` / `ypn`
parameters, signalling a natural (free) boundary instead of a clamped slope.
Written as a plain numeral, `1e30 = 10^30`. -/
def naturalSentinel : ℚ := 1000000000000000000000000000000

/-- Modelled from the spec: the state of the collaborator class
`SplineInterpolation` (not under `src/`) after `setData`: knot abscissas `x`,
ordinates `y`, and the solved second derivatives `y2` at the knots. -/
structure SplineInterpolation where
  x : Array ℚ
  y : Array ℚ
  y2 : Array ℚ
  deriving DecidableEq

namespace SplineInterpolation

/-- Modelled from the spec: the tridiagonal solve of `SplineInterpolation::setData`
(not under `src/`): a Thomas-algorithm forward sweep computing decomposition
coefficients from consecutive interval ratios, followed by backward
substitution; a boundary slope equal to the natural-spline sentinel forces the
corresponding second derivative and sweep term to `0` (natural boundary),
otherwise the supplied first derivative enters the first/last sweep equation
(clamped boundary).  Returns the solved knot second derivatives `y2`. -/
def solveY2 (xa ya : Array ℚ) (yp1 ypn : ℚ) : Array ℚ := Id.run do
  let n := xa.size
  let mut y2 : Array ℚ := Array.mkArray n 0
  let mut u : Array ℚ := Array.mkArray n 0
  if yp1 == naturalSentinel then
    y2 := y2.setD 0 0
    u := u.setD 0 0
  else
    y2 := y2.setD 0 (-(1 : ℚ) / 2)
    u := u.setD 0 ((3 / (xa.getD 1 0 - xa.getD 0 0)) *
      ((ya.getD 1 0 - ya.getD 0 0) / (xa.getD 1 0 - xa.getD 0 0) - yp1))
  for i in [1:n-1] do
    let sig := (xa.getD i 0 - xa.getD (i-1) 0) / (xa.getD (i+1) 0 - xa.getD (i-1) 0)
    let p := sig * y2.getD (i-1) 0 + 2
    y2 := y2.setD i ((sig - 1) / p)
    u := u.setD i ((6 * ((ya.getD (i+1) 0 - ya.getD i 0) / (xa.getD (i+1) 0 - xa.getD i 0)
      - (ya.getD i 0 - ya.getD (i-1) 0) / (xa.getD i 0 - xa.getD (i-1) 0))
      / (xa.getD (i+1) 0 - xa.getD (i-1) 0) - sig * u.getD (i-1) 0) / p)
  let qn : ℚ := if ypn == naturalSentinel then 0 else 1/2
  let un : ℚ := if ypn == naturalSentinel then 0 else
    (3 / (xa.getD (n-1) 0 - xa.getD (n-2) 0)) *
      (ypn - (ya.getD (n-1) 0 - ya.getD (n-2) 0) / (xa.getD (n-1) 0 - xa.getD (n-2) 0))
  y2 := y2.setD (n-1) ((un - qn * u.getD (n-2) 0) / (qn * y2.getD (n-2) 0 + 1))
  for j in [0:n-1] do
    let k := n - 2 - j
    y2 := y2.setD k (y2.getD k 0 * y2.getD (k+1) 0 + u.getD k 0)
  return y2

/-- Modelled from the spec: `SplineInterpolation::setData` (not under `src/`):
store the knot data and compute the second derivatives once, at setup time. -/
def setData (xa ya : Array ℚ) (yp1 ypn : ℚ) : SplineInterpolation :=
  ⟨xa, ya, solveY2 xa ya yp1 ypn⟩

/-- Modelled from the spec: interval location by binary search — bisection on
the ordered knot array, narrowing the bracket `[klo, khi]` until
`khi = klo + 1`.  The first argument is recursion fuel: each bisection step
shrinks `khi - klo` by at least one, so starting the fuel at `khi - klo`
makes the fuel-exhausted branch unreachable (established in the bracketing
lemma below). -/
def locateGo (xs : Array ℚ) (c : ℚ) : Nat → Nat → Nat → Nat
  | 0, klo, _ => klo
  | fuel + 1, klo, khi =>
    if khi ≤ klo + 1 then klo
    else
      let k := (khi + klo) / 2
      if c < xs.getD k 0 then locateGo xs c fuel klo k
      else locateGo xs c fuel k khi

/-- Modelled from the spec: locate the index `i` of the interval
`[x i, x (i+1)]` containing the query coordinate, by binary search over the
whole knot array. -/
def locate (s : SplineInterpolation) (c : ℚ) : Nat :=
  locateGo s.x c (s.x.size - 1) 0 (s.x.size - 1)

/-- Modelled from the spec: the value formula on the interval with index `i`,
`a*y i + b*y (i+1) + ((a^3-a)*y2 i + (b^3-b)*y2 (i+1)) * h^2 / 6`
with `h = x (i+1) - x i`, `a = (x (i+1) - c)/h`, `b = (c - x i)/h`. -/
def sampleAt (s : SplineInterpolation) (i : ℕ) (c : ℚ) : ℚ :=
  let h := s.x.getD (i+1) 0 - s.x.getD i 0
  let a := (s.x.getD (i+1) 0 - c) / h
  let b := (c - s.x.getD i 0) / h
  a * s.y.getD i 0 + b * s.y.getD (i+1) 0 +
    ((a^3 - a) * s.y2.getD i 0 + (b^3 - b) * s.y2.getD (i+1) 0) * h^2 / 6

/-- Modelled from the spec: `SplineInterpolation::sample` (not under `src/`),
the spline value at the located interval. -/
def sample (s : SplineInterpolation) (c : ℚ) : ℚ :=
  s.sampleAt (s.locate c) c

/-- Modelled from the spec: the first-derivative formula on the interval with
index `i`: `(y (i+1) - y i)/h - (3*a^2-1)/6 * h * y2 i + (3*b^2-1)/6 * h * y2 (i+1)`. -/
def sampleDerivativeAt (s : SplineInterpolation) (i : ℕ) (c : ℚ) : ℚ :=
  let h := s.x.getD (i+1) 0 - s.x.getD i 0
  let a := (s.x.getD (i+1) 0 - c) / h
  let b := (c - s.x.getD i 0) / h
  (s.y.getD (i+1) 0 - s.y.getD i 0) / h
    - (3*a^2 - 1) / 6 * h * s.y2.getD i 0 + (3*b^2 - 1) / 6 * h * s.y2.getD (i+1) 0

/-- Modelled from the spec: `SplineInterpolation::sampleDerivative`
(not under `src/`), the first derivative at the located interval. -/
def sampleDerivative (s : SplineInterpolation) (c : ℚ) : ℚ :=
  s.sampleDerivativeAt (s.locate c) c

/-- Modelled from the spec: the second-derivative formula on the interval with
index `i`: `a * y2 i + b * y2 (i+1)`. -/
def sample2ndDerivativeAt (s : SplineInterpolation) (i : ℕ) (c : ℚ) : ℚ :=
  let h := s.x.getD (i+1) 0 - s.x.getD i 0
  let a := (s.x.getD (i+1) 0 - c) / h
  let b := (c - s.x.getD i 0) / h
  a * s.y2.getD i 0 + b * s.y2.getD (i+1) 0

/-- Modelled from the spec: `SplineInterpolation::sample2ndDerivative`
(not under `src/`), the second derivative at the located interval. -/
def sample2ndDerivative (s : SplineInterpolation) (c : ℚ) : ℚ :=
  s.sample2ndDerivativeAt (s.locate c) c

end SplineInterpolation

/-- The evaluation-relevant state of a `SplineParsedMaterial` object: the
`_spline` member together with the cached domain bounds `_x_min`, `_x_max`
(`SplineParsedMaterial.h`, lines 36 and 61-63). -/
structure SplineParsedMaterial where
  spline : SplineInterpolation
  x_min : ℚ
  x_max : ℚ
  deriving DecidableEq

/-- The construction-time failure modes of the `SplineParsedMaterial`
constructor.  `lengthMismatch`, `insufficientPoints` and
`notStrictlyIncreasing` are the three `paramError` calls
(`SplineParsedMaterial.C`, lines 65-76).  `frontOnEmpty` models the undefined
behaviour of evaluating `_x_values.front()` / `_x_values.back()` on an empty
vector in the constructor initializer list (lines 57-58), which happens
before any of the validations run. -/
inductive ConstructError where
  | lengthMismatch
  | insufficientPoints
  | notStrictlyIncreasing
  | frontOnEmpty
  deriving DecidableEq

deriving instance DecidableEq for Except

/-- The constructor's monotonicity loop (`SplineParsedMaterial.C`, lines
72-76): `true` iff every adjacent pair satisfies `x (i-1) < x i`. -/
def checkIncreasing : List ℚ → Bool
  | [] => true
  | [_] => true
  | a :: b :: rest => a < b && checkIncreasing (b :: rest)

namespace SplineParsedMaterial

/-- The `SplineParsedMaterial` constructor (`SplineParsedMaterial.C`, lines
46-79), restricted to its numerically relevant effects: the initializer list
first caches `_x_min = _x_values.front()` and `_x_max = _x_values.back()`
(undefined behaviour on an empty `x`, modelled as the `frontOnEmpty` fault);
then the body validates equal lengths, at least two points, and strict
monotonicity, in that order, and finally calls `_spline.setData`. -/
def construct (x y : List ℚ) (yp1 ypn : ℚ) : Except ConstructError SplineParsedMaterial :=
  if x.isEmpty then .error .frontOnEmpty
  else
    let xmin := x.headD 0
    let xmax := x.getLastD 0
    if x.length ≠ y.length then .error .lengthMismatch
    else if x.length < 2 then .error .insufficientPoints
    else if ¬ checkIncreasing x then .error .notStrictlyIncreasing
    else .ok ⟨SplineInterpolation.setData x.toArray y.toArray yp1 ypn, xmin, xmax⟩

/-- `SplineParsedMaterial::computeValue` (`SplineParsedMaterial.C`, lines
143-162), projected on its return value: clamp an out-of-domain coordinate to
the nearest domain boundary, then sample the spline.  The one-shot warning of
lines 149-157 touches only diagnostic state, never the returned value; it is
modelled in full by `computeValueM` below. -/
def computeValue (m : SplineParsedMaterial) (c : ℚ) : ℚ :=
  let cc := if c < m.x_min ∨ c > m.x_max then max m.x_min (min m.x_max c) else c
  m.spline.sample cc

/-- `SplineParsedMaterial::computeValue` with its side effects
(`SplineParsedMaterial.C`, lines 143-162): besides the returned value, the
function reads and may set the function-local `static bool warned` flag, and
emits a `mooseWarning` the first time an out-of-domain coordinate arrives
while the host time step `_t_step` is `0`.  Result: (returned value, new
`warned` flag, emitted warning if any). -/
def computeValueM (m : SplineParsedMaterial) (tStep : ℤ) (warned : Bool) (c : ℚ) :
    ℚ × Bool × Option String :=
  if c < m.x_min ∨ c > m.x_max then
    if warned = false ∧ tStep = 0 then
      (m.spline.sample (max m.x_min (min m.x_max c)), true,
        some "Value outside spline domain. Clamping to domain boundaries.")
    else
      (m.spline.sample (max m.x_min (min m.x_max c)), warned, none)
  else (m.spline.sample c, warned, none)

/-- `SplineParsedMaterial::computeDerivative` (`SplineParsedMaterial.C`,
lines 164-185): clamp an out-of-domain coordinate to the nearest domain
boundary, then dispatch on the derivative order (value, first derivative,
second derivative, and `0` for order three and higher). -/
def computeDerivative (m : SplineParsedMaterial) (c : ℚ) (order : ℕ) : ℚ :=
  let cc := if c < m.x_min ∨ c > m.x_max then max m.x_min (min m.x_max c) else c
  match order with
  | 0 => m.spline.sample cc
  | 1 => m.spline.sampleDerivative cc
  | 2 => m.spline.sample2ndDerivative cc
  | _ + 3 => 0

/-- A sequence of `computeValue` calls on one material object, threading the
`static bool warned` flag from call to call (the only mutable state the
evaluator touches): returns the list of results and the final flag. -/
def runValueQueries (m : SplineParsedMaterial) (tStep : ℤ) (warned : Bool) :
    List ℚ → List ℚ × Bool
  | [] => ([], warned)
  | c :: cs =>
    let r := m.computeValueM tStep warned c
    let rest := runValueQueries m tStep r.2.1 cs
    (r.1 :: rest.1, rest.2)

end SplineParsedMaterial

/-- A concrete two-knot material object: the result of constructing with
`x = [0,1]`, `y = [0,1]` and clamped boundary slopes `1` (a straight line, so
the solved second derivatives are `0`).  Used to instantiate the universally
quantified theorems below at a concrete input. -/
def exampleMaterial : SplineParsedMaterial :=
  ⟨⟨#[0, 1], #[0, 1], #[0, 0]⟩, 0, 1⟩

/-! ### Basic facts about the embedded definitions -/

theorem checkIncreasing_iff : ∀ (l : List ℚ), checkIncreasing l = true ↔ l.Chain' (· < ·)
  | [] => by simp [checkIncreasing]
  | [_] => by simp [checkIncreasing]
  | a :: b :: t => by
    rw [checkIncreasing, Bool.and_eq_true, decide_eq_true_iff, List.chain'_cons,
      checkIncreasing_iff (b :: t)]

theorem list_getD_eq_getElem (l : List ℚ) (i : ℕ) (h : i < l.length) :
    l.getD i 0 = l[i] := by
  simp [List.getD_eq_getElem?_getD, List.getElem?_eq_getElem h]

theorem chain'_lt_getD_lt (x : List ℚ) (hinc : List.Chain' (· < ·) x)
    {i j : ℕ} (hij : i < j) (hj : j < x.length) :
    x.getD i 0 < x.getD j 0 := by
  rw [List.chain'_iff_pairwise] at hinc
  rw [list_getD_eq_getElem x i (lt_trans hij hj), list_getD_eq_getElem x j hj]
  exact List.pairwise_iff_getElem.mp hinc i j (lt_trans hij hj) hj hij

theorem chain'_le_getD_le (x : List ℚ) (hinc : List.Chain' (· < ·) x)
    {i j : ℕ} (hij : i ≤ j) (hj : j < x.length) :
    x.getD i 0 ≤ x.getD j 0 := by
  rcases eq_or_lt_of_le hij with rfl | h
  · exact le_refl _
  · exact le_of_lt (chain'_lt_getD_lt x hinc h hj)

theorem headD_eq_getD (l : List ℚ) : l.headD 0 = l.getD 0 0 := by
  cases l <;> rfl

theorem getLastD_eq_getD (l : List ℚ) : l.getLastD 0 = l.getD (l.length - 1) 0 := by
  cases l with
  | nil => rfl
  | cons a t =>
    rw [List.getLastD_eq_getLast?, List.getLast?_eq_getElem?]
    simp [List.getD_eq_getElem?_getD]

theorem toArray_getD (l : List ℚ) (i : ℕ) : l.toArray.getD i 0 = l.getD i 0 := by
  by_cases h : i < l.length
  · rw [Array.getD, dif_pos (by simpa using h), list_getD_eq_getElem l i h]
    simp
  · rw [Array.getD, dif_neg (by simpa using h)]
    rw [List.getD_eq_getElem?_getD, List.getElem?_eq_none (le_of_not_lt h)]
    rfl

theorem construct_eq_ok {x y : List ℚ} {yp1 ypn : ℚ} {m : SplineParsedMaterial}
    (h : SplineParsedMaterial.construct x y yp1 ypn = .ok m) :
    x ≠ [] ∧ x.length = y.length ∧ 2 ≤ x.length ∧ checkIncreasing x = true ∧
      m = ⟨SplineInterpolation.setData x.toArray y.toArray yp1 ypn,
        x.headD 0, x.getLastD 0⟩ := by
  unfold SplineParsedMaterial.construct at h
  split at h
  · exact Except.noConfusion h
  · split at h
    · exact Except.noConfusion h
    · split at h
      · exact Except.noConfusion h
      · split at h
        · exact Except.noConfusion h
        · refine ⟨fun hx => ‹¬x.isEmpty = true› (by simp [hx]), by omega, by omega,
            by simpa using ‹¬¬checkIncreasing x = true›, ?_⟩
          exact (Except.ok.inj h).symm

theorem locateGo_bracket (xs : Array ℚ) (c : ℚ) :
    ∀ (fuel klo khi : ℕ), khi - klo ≤ fuel → klo < khi → khi < xs.size →
    xs.getD klo 0 ≤ c → c ≤ xs.getD khi 0 →
    klo ≤ SplineInterpolation.locateGo xs c fuel klo khi ∧
      SplineInterpolation.locateGo xs c fuel klo khi + 1 ≤ khi ∧
      xs.getD (SplineInterpolation.locateGo xs c fuel klo khi) 0 ≤ c ∧
      c ≤ xs.getD (SplineInterpolation.locateGo xs c fuel klo khi + 1) 0 := by
  intro fuel
  induction fuel with
  | zero =>
    intro klo khi hfuel hlt _ _ _
    omega
  | succ fuel ih =>
    intro klo khi hfuel hlt hsz h1 h2
    rw [SplineInterpolation.locateGo]
    by_cases hk : khi ≤ klo + 1
    · rw [if_pos hk]
      have hkk : khi = klo + 1 := by omega
      exact ⟨le_refl _, by omega, h1, hkk ▸ h2⟩
    · rw [if_neg hk]
      have hk1 : klo < (khi + klo) / 2 := by omega
      have hk2 : (khi + klo) / 2 < khi := by omega
      by_cases hc : c < xs.getD ((khi + klo) / 2) 0
      · rw [if_pos hc]
        have hrec := ih klo ((khi + klo) / 2) (by omega) hk1 (by omega) h1 (le_of_lt hc)
        exact ⟨hrec.1, by omega, hrec.2.2⟩
      · rw [if_neg hc]
        have hrec := ih ((khi + klo) / 2) khi (by omega) hk2 hsz (not_lt.mp hc) h2
        exact ⟨by omega, hrec.2.1, hrec.2.2⟩

theorem locate_bracket (s : SplineInterpolation) (c : ℚ) (hn : 2 ≤ s.x.size)
    (h1 : s.x.getD 0 0 ≤ c) (h2 : c ≤ s.x.getD (s.x.size - 1) 0) :
    s.locate c + 1 ≤ s.x.size - 1 ∧
      s.x.getD (s.locate c) 0 ≤ c ∧ c ≤ s.x.getD (s.locate c + 1) 0 := by
  have h := locateGo_bracket s.x c (s.x.size - 1) 0 (s.x.size - 1)
    (le_refl _) (by omega) (by omega) h1 h2
  exact ⟨h.2.1, h.2.2⟩

theorem sampleAt_left_knot (s : SplineInterpolation) (i : ℕ)
    (hne : s.x.getD i 0 ≠ s.x.getD (i+1) 0) :
    s.sampleAt i (s.x.getD i 0) = s.y.getD i 0 := by
  have h0 : s.x.getD (i+1) 0 - s.x.getD i 0 ≠ 0 := sub_ne_zero.mpr (Ne.symm hne)
  simp only [SplineInterpolation.sampleAt]
  rw [sub_self, zero_div, div_self h0]
  ring

theorem sampleAt_right_knot (s : SplineInterpolation) (i : ℕ)
    (hne : s.x.getD i 0 ≠ s.x.getD (i+1) 0) :
    s.sampleAt i (s.x.getD (i+1) 0) = s.y.getD (i+1) 0 := by
  have h0 : s.x.getD (i+1) 0 - s.x.getD i 0 ≠ 0 := sub_ne_zero.mpr (Ne.symm hne)
  simp only [SplineInterpolation.sampleAt]
  rw [sub_self, zero_div, div_self h0]
  ring

theorem sample_at_knot (x y : List ℚ) (yp1 ypn : ℚ)
    (hinc : List.Chain' (· < ·) x) (hn : 2 ≤ x.length) (i : ℕ) (hi : i < x.length) :
    (SplineInterpolation.setData x.toArray y.toArray yp1 ypn).sample (x.getD i 0) =
      y.getD i 0 := by
  have hx_eq : ∀ j, (SplineInterpolation.setData x.toArray y.toArray yp1 ypn).x.getD j 0 =
      x.getD j 0 := fun j => toArray_getD x j
  have hy_eq : ∀ j, (SplineInterpolation.setData x.toArray y.toArray yp1 ypn).y.getD j 0 =
      y.getD j 0 := fun j => toArray_getD y j
  have hsize : (SplineInterpolation.setData x.toArray y.toArray yp1 ypn).x.size = x.length :=
    Array.size_toArray x
  have hb := locate_bracket (SplineInterpolation.setData x.toArray y.toArray yp1 ypn)
    (x.getD i 0) (by omega)
    (by rw [hx_eq]; exact chain'_le_getD_le x hinc (Nat.zero_le i) hi)
    (by rw [hsize, hx_eq]; exact chain'_le_getD_le x hinc (by omega) (by omega))
  rw [SplineInterpolation.sample]
  generalize hgen : SplineInterpolation.locate
    (SplineInterpolation.setData x.toArray y.toArray yp1 ypn) (x.getD i 0) = r
  rw [hgen] at hb
  rw [hsize, hx_eq, hx_eq] at hb
  obtain ⟨hr1, hxr, hxr1⟩ := hb
  have hadj : x.getD r 0 < x.getD (r+1) 0 :=
    chain'_lt_getD_lt x hinc (Nat.lt_succ_self r) (by omega)
  have hri : i = r ∨ i = r + 1 := by
    by_contra hcon
    push_neg at hcon
    rcases Nat.lt_or_ge i r with hlt | hge
    · exact absurd (chain'_lt_getD_lt x hinc hlt (by omega)) (not_lt.mpr hxr)
    · have hgt : r + 1 < i := by omega
      exact absurd (chain'_lt_getD_lt x hinc hgt hi) (not_lt.mpr hxr1)
  have hne : (SplineInterpolation.setData x.toArray y.toArray yp1 ypn).x.getD r 0 ≠
      (SplineInterpolation.setData x.toArray y.toArray yp1 ypn).x.getD (r+1) 0 := by
    rw [hx_eq, hx_eq]; exact ne_of_lt hadj
  rcases hri with rfl | rfl
  · calc (SplineInterpolation.setData x.toArray y.toArray yp1 ypn).sampleAt i (x.getD i 0)
        = (SplineInterpolation.setData x.toArray y.toArray yp1 ypn).sampleAt i
          ((SplineInterpolation.setData x.toArray y.toArray yp1 ypn).x.getD i 0) := by
          rw [hx_eq]
      _ = (SplineInterpolation.setData x.toArray y.toArray yp1 ypn).y.getD i 0 :=
          sampleAt_left_knot _ i hne
      _ = y.getD i 0 := hy_eq i
  · calc (SplineInterpolation.setData x.toArray y.toArray yp1 ypn).sampleAt r (x.getD (r+1) 0)
        = (SplineInterpolation.setData x.toArray y.toArray yp1 ypn).sampleAt r
          ((SplineInterpolation.setData x.toArray y.toArray yp1 ypn).x.getD (r+1) 0) := by
          rw [hx_eq]
      _ = (SplineInterpolation.setData x.toArray y.toArray yp1 ypn).y.getD (r+1) 0 :=
          sampleAt_right_knot _ r hne
      _ = y.getD (r+1) 0 := hy_eq _

theorem computeValueM_value (m : SplineParsedMaterial) (tStep : ℤ) (warned : Bool) (c : ℚ) :
    (m.computeValueM tStep warned c).1 = m.computeValue c := by
  simp only [SplineParsedMaterial.computeValueM, SplineParsedMaterial.computeValue]
  by_cases hcond : c < m.x_min ∨ c > m.x_max
  · rw [if_pos hcond, if_pos hcond]
    split <;> rfl
  · rw [if_neg hcond, if_neg hcond]

theorem construct_x_min_lt_x_max {x y : List ℚ} {yp1 ypn : ℚ} {m : SplineParsedMaterial}
    (h : SplineParsedMaterial.construct x y yp1 ypn = .ok m) : m.x_min < m.x_max := by
  obtain ⟨hne, hlen, hn, hchk, rfl⟩ := construct_eq_ok h
  show x.headD 0 < x.getLastD 0
  rw [headD_eq_getD, getLastD_eq_getD]
  exact chain'_lt_getD_lt x ((checkIncreasing_iff x).mp hchk) (by omega) (by omega)

theorem clamp_below {u v c : ℚ} (huv : u ≤ v) (hc : c < u) :
    max u (min v c) = u := by
  rw [min_eq_right (le_trans (le_of_lt hc) huv), max_eq_left (le_of_lt hc)]

theorem clamp_above {u v c : ℚ} (huv : u ≤ v) (hc : v < c) :
    max u (min v c) = v := by
  rw [min_eq_left (le_of_lt hc), max_eq_right huv]

/-! ### The claims -/

/-- C1: for every constructed spline and every query coordinate `c` outside
`[domain_min, domain_max]`, evaluation clamps `c` to the nearest domain
boundary before evaluating: the value at `c` equals the value at `domain_min`
when `c < domain_min` and at `domain_max` when `c > domain_max`, and the same
clamping applies to every derivative order; extrapolation is never
performed. -/
theorem C1_out_of_domain_clamps (x y : List ℚ) (yp1 ypn : ℚ) (m : SplineParsedMaterial)
    (hm : SplineParsedMaterial.construct x y yp1 ypn = .ok m) (c : ℚ) :
    (c < m.x_min →
      m.computeValue c = m.computeValue m.x_min ∧
      ∀ order : ℕ, m.computeDerivative c order = m.computeDerivative m.x_min order) ∧
    (c > m.x_max →
      m.computeValue c = m.computeValue m.x_max ∧
      ∀ order : ℕ, m.computeDerivative c order = m.computeDerivative m.x_max order) := by
  have hmm : m.x_min < m.x_max := construct_x_min_lt_x_max hm
  have hid_lo : (if m.x_min < m.x_min ∨ m.x_min > m.x_max then
      max m.x_min (min m.x_max m.x_min) else m.x_min) = m.x_min := by
    rw [if_neg]
    push_neg
    exact ⟨le_refl _, le_of_lt hmm⟩
  have hid_hi : (if m.x_max < m.x_min ∨ m.x_max > m.x_max then
      max m.x_min (min m.x_max m.x_max) else m.x_max) = m.x_max := by
    rw [if_neg]
    push_neg
    exact ⟨le_of_lt hmm, le_refl _⟩
  constructor
  · intro hc
    have hclamp : (if c < m.x_min ∨ c > m.x_max then
        max m.x_min (min m.x_max c) else c) = m.x_min := by
      rw [if_pos (Or.inl hc)]
      exact clamp_below (le_of_lt hmm) hc
    constructor
    · simp only [SplineParsedMaterial.computeValue]
      rw [hclamp, hid_lo]
    · intro order
      simp only [SplineParsedMaterial.computeDerivative]
      rw [hclamp, hid_lo]
  · intro hc
    have hclamp : (if c < m.x_min ∨ c > m.x_max then
        max m.x_min (min m.x_max c) else c) = m.x_max := by
      rw [if_pos (Or.inr hc)]
      exact clamp_above (le_of_lt hmm) hc
    constructor
    · simp only [SplineParsedMaterial.computeValue]
      rw [hclamp, hid_hi]
    · intro order
      simp only [SplineParsedMaterial.computeDerivative]
      rw [hclamp, hid_hi]

/-- Witness for C1 at a concrete input: the two-knot material built from
`x = [0,1]`, `y = [0,1]`, queried below the domain at `-1` and above it
at `2`. -/
theorem C1_witness :
    SplineParsedMaterial.construct [0, 1] [0, 1] 1 1 = .ok exampleMaterial ∧
    ((-1 : ℚ) < exampleMaterial.x_min ∧
      exampleMaterial.computeValue (-1) = exampleMaterial.computeValue exampleMaterial.x_min) ∧
    ((2 : ℚ) > exampleMaterial.x_max ∧
      exampleMaterial.computeValue 2 = exampleMaterial.computeValue exampleMaterial.x_max) :=
  ⟨by with_unfolding_all decide,
   ⟨by decide,
    ((C1_out_of_domain_clamps [0, 1] [0, 1] 1 1 exampleMaterial
      (by with_unfolding_all decide) (-1)).1 (by decide)).1⟩,
   ⟨by decide,
    ((C1_out_of_domain_clamps [0, 1] [0, 1] 1 1 exampleMaterial
      (by with_unfolding_all decide) 2).2 (by decide)).1⟩⟩

/-- C4: for every constructed spline, every query coordinate and every
derivative order at least 3, the derivative query returns exactly 0. -/
theorem C4_high_order_derivative_zero (x y : List ℚ) (yp1 ypn : ℚ)
    (m : SplineParsedMaterial)
    (hm : SplineParsedMaterial.construct x y yp1 ypn = .ok m)
    (c : ℚ) (order : ℕ) (h3 : 3 ≤ order) :
    m.computeDerivative c order = 0 := by
  obtain ⟨k, rfl⟩ : ∃ k, order = k + 3 := ⟨order - 3, by omega⟩
  rfl

/-- Witness for C4 at a concrete input: the third derivative of the two-knot
material at coordinate `5` is `0`. -/
theorem C4_witness :
    SplineParsedMaterial.construct [0, 1] [0, 1] 1 1 = .ok exampleMaterial ∧
    3 ≤ 3 ∧ exampleMaterial.computeDerivative 5 3 = 0 :=
  ⟨by with_unfolding_all decide, by decide,
    C4_high_order_derivative_zero [0, 1] [0, 1] 1 1 exampleMaterial
      (by with_unfolding_all decide) 5 3 (by decide)⟩

/-- C8: every operation is deterministic.  For a fixed constructed spline, a
whole sequence of value queries returns exactly the pointwise pure values,
independent of the host time step, of the warning flag, and of how many
queries preceded each one (construction itself is a pure function of its
inputs in this embedding, so construction determinism is definitional). -/
theorem C8_deterministic_queries (x y : List ℚ) (yp1 ypn : ℚ)
    (m : SplineParsedMaterial)
    (hm : SplineParsedMaterial.construct x y yp1 ypn = .ok m)
    (tStep : ℤ) (warned : Bool) (cs : List ℚ) :
    (m.runValueQueries tStep warned cs).1 = cs.map m.computeValue := by
  induction cs generalizing warned with
  | nil => rfl
  | cons c cs ih =>
    simp only [SplineParsedMaterial.runValueQueries, List.map]
    rw [computeValueM_value, ih]

/-- Witness for C8 at a concrete input: a two-query sequence on the two-knot
material returns the pure values. -/
theorem C8_witness :
    SplineParsedMaterial.construct [0, 1] [0, 1] 1 1 = .ok exampleMaterial ∧
    (exampleMaterial.runValueQueries 0 false [2, 3]).1 =
      List.map exampleMaterial.computeValue [2, 3] :=
  ⟨by with_unfolding_all decide,
    C8_deterministic_queries [0, 1] [0, 1] 1 1 exampleMaterial
      (by with_unfolding_all decide) 0 false [2, 3]⟩

/-- C10: for every constructed spline and every query coordinate (in-domain or
out-of-domain), the derivative query with order 0 returns the same result as
the value query: both clamp the coordinate the same way and then sample the
same spline. -/
theorem C10_order_zero_is_value (x y : List ℚ) (yp1 ypn : ℚ)
    (m : SplineParsedMaterial)
    (hm : SplineParsedMaterial.construct x y yp1 ypn = .ok m) (c : ℚ) :
    m.computeDerivative c 0 = m.computeValue c := rfl

/-- Witness for C10 at a concrete input: order-0 derivative equals the value
on the two-knot material at the out-of-domain coordinate `7`. -/
theorem C10_witness :
    SplineParsedMaterial.construct [0, 1] [0, 1] 1 1 = .ok exampleMaterial ∧
    exampleMaterial.computeDerivative 7 0 = exampleMaterial.computeValue 7 :=
  ⟨by with_unfolding_all decide,
    C10_order_zero_is_value [0, 1] [0, 1] 1 1 exampleMaterial
      (by with_unfolding_all decide) 7⟩

/-- C3 counterexample: the claim that out-of-domain evaluation produces no
notification and changes no state, regardless of host time-step state, is
false on the code: on the two-knot material, the first out-of-domain value
query at time step 0 with the `static bool warned` flag still clear emits a
`mooseWarning` and sets the flag (`SplineParsedMaterial.C`, lines 149-157). -/
theorem C3_counterexample :
    SplineParsedMaterial.construct [0, 1] [0, 1] 1 1 = .ok exampleMaterial ∧
    (2 : ℚ) > exampleMaterial.x_max ∧
    (exampleMaterial.computeValueM 0 false 2).2.2.isSome = true ∧
    (exampleMaterial.computeValueM 0 false 2).2.1 = true :=
  ⟨by with_unfolding_all decide, by decide, by decide, by decide⟩

/-- C3 amended: out-of-domain evaluation never signals an error and never
affects the returned value (the value is the pure clamped sample, whatever
the diagnostic state); derivative queries have no side effects at all; but a
value query emits a one-time warning exactly when the `static bool warned`
flag is still clear, the host time step is 0, and the coordinate is out of
domain — and that is also exactly when it sets the flag. -/
theorem C3_amended_warning_behaviour (m : SplineParsedMaterial) (tStep : ℤ)
    (warned : Bool) (c : ℚ) :
    (m.computeValueM tStep warned c).1 = m.computeValue c ∧
    ((m.computeValueM tStep warned c).2.2 ≠ none ↔
      warned = false ∧ tStep = 0 ∧ (c < m.x_min ∨ c > m.x_max)) ∧
    ((m.computeValueM tStep warned c).2.1 = true ↔
      warned = true ∨ (tStep = 0 ∧ (c < m.x_min ∨ c > m.x_max))) := by
  refine ⟨computeValueM_value m tStep warned c, ?_, ?_⟩
  · simp only [SplineParsedMaterial.computeValueM]
    by_cases hcond : c < m.x_min ∨ c > m.x_max
    · rw [if_pos hcond]
      by_cases hw : warned = false ∧ tStep = 0
      · rw [if_pos hw]
        simp [hw, hcond]
      · rw [if_neg hw]
        simp only [ne_eq, not_true_eq_false, iff_false, not_and]
        simp [hcond]
        intro h1 h2
        exact hw ⟨h1, h2⟩
    · rw [if_neg hcond]
      simp [hcond]
  · simp only [SplineParsedMaterial.computeValueM]
    by_cases hcond : c < m.x_min ∨ c > m.x_max
    · rw [if_pos hcond]
      by_cases hw : warned = false ∧ tStep = 0
      · rw [if_pos hw]
        simp [hw.2, hcond]
      · rw [if_neg hw]
        cases warned with
        | false =>
          have ht : ¬tStep = 0 := fun h => hw ⟨rfl, h⟩
          simp [hcond, ht]
        | true => simp [hcond]
    · rw [if_neg hcond]
      simp [hcond]

/-- C5: evaluation of the code at the failing input `x = []`, `y = [1]` (a
length mismatch): the constructor faults on `_x_values.front()` in its
initializer list before the length validation can run, so the promised
`LengthMismatch` error is never reached. -/
theorem C5_empty_x_front_fault :
    ([] : List ℚ).length ≠ [(1 : ℚ)].length ∧
    SplineParsedMaterial.construct [] [1] 0 0 = .error .frontOnEmpty ∧
    SplineParsedMaterial.construct [] [1] 0 0 ≠ .error .lengthMismatch := by
  refine ⟨by decide, rfl, by decide⟩

/-- C6: evaluation of the code at the failing input `x = []`, `y = []` (fewer
than two points): the constructor faults on `_x_values.front()` in its
initializer list before the size validation can run, so the promised
`InsufficientPoints` error is never reached. -/
theorem C6_empty_input_fault :
    ([] : List ℚ).length < 2 ∧
    SplineParsedMaterial.construct [] [] 0 0 = .error .frontOnEmpty ∧
    SplineParsedMaterial.construct [] [] 0 0 ≠ .error .insufficientPoints := by
  refine ⟨by decide, rfl, by decide⟩

/-- C7 counterexample: the input `x = [1,1]`, `y = [1]` contains the
inversion `x 1 ≤ x 0`, yet construction fails with `LengthMismatch`, not
`NotStrictlyIncreasing`, because the length check runs first. -/
theorem C7_counterexample :
    [(1 : ℚ), 1].getD 1 0 ≤ [(1 : ℚ), 1].getD 0 0 ∧
    SplineParsedMaterial.construct [1, 1] [1] 0 0 = .error .lengthMismatch ∧
    SplineParsedMaterial.construct [1, 1] [1] 0 0 ≠ .error .notStrictlyIncreasing := by
  refine ⟨by decide, by decide, by decide⟩

/-- C7 amended: for every input whose `x` and `y` have equal lengths and whose
`x` contains an index `i ≥ 1` with `x i ≤ x (i-1)` (a duplicate or an
inversion), construction fails with the `NotStrictlyIncreasing` error —
violated monotonicity is a construction-time failure, never a silent
correction. -/
theorem C7_amended_monotonicity_failure (x y : List ℚ) (yp1 ypn : ℚ) (i : ℕ)
    (hlen : x.length = y.length) (h1 : 1 ≤ i) (h2 : i < x.length)
    (hviol : x.getD i 0 ≤ x.getD (i - 1) 0) :
    SplineParsedMaterial.construct x y yp1 ypn = .error .notStrictlyIncreasing := by
  have hnot : checkIncreasing x = false := by
    by_contra hchk
    rw [Bool.not_eq_false] at hchk
    have := chain'_lt_getD_lt x ((checkIncreasing_iff x).mp hchk)
      (show i - 1 < i by omega) h2
    exact absurd this (not_lt.mpr hviol)
  obtain ⟨a, t, rfl⟩ : ∃ a t, x = a :: t := by
    cases x with
    | nil => exact absurd h2 (by simp)
    | cons a t => exact ⟨a, t, rfl⟩
  simp only [SplineParsedMaterial.construct, List.isEmpty_cons, Bool.false_eq_true,
    if_false]
  rw [if_neg (not_ne_iff.mpr hlen), if_neg (by omega), if_pos (by simp [hnot])]

/-- Witness for C7's amended statement at a concrete input: the spec's own
example `x = [1,3,2]` (with a matching `y`) fails with
`NotStrictlyIncreasing`. -/
theorem C7_witness :
    ([(1 : ℚ), 3, 2].length = [(0 : ℚ), 0, 0].length) ∧ 1 ≤ 2 ∧
    2 < [(1 : ℚ), 3, 2].length ∧
    [(1 : ℚ), 3, 2].getD 2 0 ≤ [(1 : ℚ), 3, 2].getD 1 0 ∧
    SplineParsedMaterial.construct [1, 3, 2] [0, 0, 0] 0 0 =
      .error .notStrictlyIncreasing :=
  ⟨rfl, by decide, by decide, by decide,
    C7_amended_monotonicity_failure [1, 3, 2] [0, 0, 0] 0 0 2 rfl (by decide)
      (by decide) (by decide)⟩

/-- C9: the constructor caches the domain bounds from the front and back of
`x` in its initializer list before any validation runs, so an empty `x` hits
the front/back access fault (never the `InsufficientPoints` error), and the
`InsufficientPoints` check consequently only ever fires for `x` of length
exactly 1. -/
theorem C9_front_access_precedes_checks :
    (∀ (y : List ℚ) (yp1 ypn : ℚ),
      SplineParsedMaterial.construct [] y yp1 ypn = .error .frontOnEmpty) ∧
    (∀ (x y : List ℚ) (yp1 ypn : ℚ),
      SplineParsedMaterial.construct x y yp1 ypn = .error .insufficientPoints →
        x.length = 1) := by
  constructor
  · intro y yp1 ypn
    rfl
  · intro x y yp1 ypn h
    unfold SplineParsedMaterial.construct at h
    split at h
    · exact absurd (Except.error.inj h) (by decide)
    · split at h
      · exact absurd (Except.error.inj h) (by decide)
      · split at h
        · have hx : ¬x.isEmpty = true := ‹¬x.isEmpty = true›
          have hpos : 0 < x.length := by
            cases x with
            | nil => exact absurd rfl hx
            | cons a t => simp
          omega
        · split at h
          · exact absurd (Except.error.inj h) (by decide)
          · exact Except.noConfusion h

/-- Witness for C9 at a concrete input: the one-point input `x = [1]`,
`y = [1]` fails with `InsufficientPoints`, and indeed has length 1. -/
theorem C9_witness :
    SplineParsedMaterial.construct [1] [1] 0 0 = .error .insufficientPoints ∧
    [(1 : ℚ)].length = 1 :=
  ⟨by decide, C9_front_access_precedes_checks.2 [1] [1] 0 0 (by decide)⟩

/-- C2: for every valid input `(x, y)` with `x` strictly increasing and length
at least 2, construction succeeds and the constructed spline interpolates its
knots: the value at `x i` is exactly `y i` for every knot index (exact
equality here over the exact-arithmetic embedding, which is the
floating-point claim up to rounding). -/
theorem C2_construction_interpolates (x y : List ℚ) (yp1 ypn : ℚ)
    (hlen : x.length = y.length) (hn : 2 ≤ x.length)
    (hinc : List.Chain' (· < ·) x) :
    ∃ m, SplineParsedMaterial.construct x y yp1 ypn = .ok m ∧
      ∀ i < x.length, m.computeValue (x.getD i 0) = y.getD i 0 := by
  have hne : ¬x.isEmpty = true := by
    cases x with
    | nil => simp at hn
    | cons a t => simp
  refine ⟨⟨SplineInterpolation.setData x.toArray y.toArray yp1 ypn,
    x.headD 0, x.getLastD 0⟩, ?_, ?_⟩
  · unfold SplineParsedMaterial.construct
    rw [if_neg hne, if_neg (not_ne_iff.mpr hlen), if_neg (by omega),
      if_neg (not_not_intro ((checkIncreasing_iff x).mpr hinc))]
  · intro i hi
    have hxmin : x.headD 0 ≤ x.getD i 0 := by
      rw [headD_eq_getD]
      exact chain'_le_getD_le x hinc (Nat.zero_le i) hi
    have hxmax : x.getD i 0 ≤ x.getLastD 0 := by
      rw [getLastD_eq_getD]
      exact chain'_le_getD_le x hinc (by omega) (by omega)
    simp only [SplineParsedMaterial.computeValue]
    rw [if_neg (by push_neg; exact ⟨hxmin, hxmax⟩)]
    exact sample_at_knot x y yp1 ypn hinc hn i hi

/-- Witness for C2 at a concrete input: `x = [0,1]`, `y = [3,4]` with clamped
slopes 1 constructs successfully and passes through both knots. -/
theorem C2_witness :
    ([(0 : ℚ), 1].length = [(3 : ℚ), 4].length) ∧ 2 ≤ [(0 : ℚ), 1].length ∧
    List.Chain' (· < ·) [(0 : ℚ), 1] ∧
    ∃ m, SplineParsedMaterial.construct [0, 1] [3, 4] 1 1 = .ok m ∧
      ∀ i < [(0 : ℚ), 1].length,
        m.computeValue ([(0 : ℚ), 1].getD i 0) = [(3 : ℚ), 4].getD i 0 :=
  ⟨rfl, by decide, by norm_num [List.chain'_pair],
    C2_construction_interpolates [0, 1] [3, 4] 1 1 rfl (by decide)
      (by norm_num [List.chain'_pair])⟩
